import Mathlib

/-!
Verification of the job-splitter batch framework: a shallow embedding of
`src/framework.py` (entropy derivation, seed selection, weighted
partitioning, the completion-processing loop, result persistence) and
`src/zipped_logs.py` (the zip-merging rotating log handler), together with
theorems settling the specified properties.

Machine integers are modelled as `Nat` with explicit `% 2 ^ 64` masking in
the hash core; Python byte strings are `List Nat` (each element a byte);
fallible code returns `Except`.
-/

namespace JobSplitter

/-! ## SHA3-512, as invoked by `get_entropy` through `hashlib.sha3_512`.

The sponge uses the Keccak-f[1600] permutation with rate 72 bytes and the
SHA-3 domain padding `0x06 … 0x80`.  The 5×5 lane grid is stored as a flat
25-element list, lane (x, y) at index `x + 5 * y`, each lane a 64-bit word
kept below `2 ^ 64`. -/

def w64 : Nat := 2 ^ 64

def mask64 : Nat := w64 - 1

def rotl64 (x n : Nat) : Nat :=
  ((x <<< (n % 64)) % w64) ||| (x >>> (64 - n % 64))

def theta (s : List Nat) : List Nat :=
  let C := fun x =>
    ((((s.getD (x % 5) 0 ^^^ s.getD (x % 5 + 5) 0) ^^^ s.getD (x % 5 + 10) 0)
        ^^^ s.getD (x % 5 + 15) 0) ^^^ s.getD (x % 5 + 20) 0)
  let D := fun x => C ((x + 4) % 5) ^^^ rotl64 (C ((x + 1) % 5)) 1
  (List.range 25).map (fun i => s.getD i 0 ^^^ D (i % 5))

/-- The ρ rotation offset of the lane at flat index `x + 5 * y`. -/
def rhoOffset : Nat → Nat
  | 1 => 1
  | 2 => 62
  | 3 => 28
  | 4 => 27
  | 5 => 36
  | 6 => 44
  | 7 => 6
  | 8 => 55
  | 9 => 20
  | 10 => 3
  | 11 => 10
  | 12 => 43
  | 13 => 25
  | 14 => 39
  | 15 => 41
  | 16 => 45
  | 17 => 15
  | 18 => 21
  | 19 => 8
  | 20 => 18
  | 21 => 2
  | 22 => 61
  | 23 => 56
  | 24 => 14
  | _ => 0

def rhoPi (s : List Nat) : List Nat :=
  (List.range 25).map (fun i =>
    let x := i % 5
    let y := i / 5
    let j := (x + 3 * y) % 5 + 5 * x
    rotl64 (s.getD j 0) (rhoOffset j))

def chi (s : List Nat) : List Nat :=
  (List.range 25).map (fun i =>
    let x := i % 5
    let y := i / 5
    s.getD i 0 ^^^
      ((mask64 ^^^ s.getD ((x + 1) % 5 + 5 * y) 0) &&& s.getD ((x + 2) % 5 + 5 * y) 0))

def iotaRC (rc : Nat) (s : List Nat) : List Nat :=
  match s with
  | [] => []
  | a :: rest => (a ^^^ rc) :: rest

/-- The ι round constant of round `i` of Keccak-f[1600]. -/
def roundConst : Nat → Nat
  | 0 => 0x1
  | 1 => 0x8082
  | 2 => 0x800000000000808A
  | 3 => 0x8000000080008000
  | 4 => 0x808B
  | 5 => 0x80000001
  | 6 => 0x8000000080008081
  | 7 => 0x8000000000008009
  | 8 => 0x8A
  | 9 => 0x88
  | 10 => 0x80008009
  | 11 => 0x8000000A
  | 12 => 0x8000808B
  | 13 => 0x800000000000008B
  | 14 => 0x8000000000008089
  | 15 => 0x8000000000008003
  | 16 => 0x8000000000008002
  | 17 => 0x8000000000000080
  | 18 => 0x800A
  | 19 => 0x800000008000000A
  | 20 => 0x8000000080008081
  | 21 => 0x8000000000008080
  | 22 => 0x80000001
  | _ => 0x8000000080008008

def keccakRC : List Nat := (List.range 24).map roundConst

def keccakRound (s : List Nat) (rc : Nat) : List Nat :=
  iotaRC rc (chi (rhoPi (theta s)))

def keccakF (s : List Nat) : List Nat :=
  keccakRC.foldl keccakRound s

/-- Little-endian packing of bytes into 64-bit lanes, eight bytes per lane. -/
def toWords : List Nat → List Nat
  | b0 :: b1 :: b2 :: b3 :: b4 :: b5 :: b6 :: b7 :: rest =>
      (b0 + 256 * (b1 + 256 * (b2 + 256 * (b3 + 256 *
        (b4 + 256 * (b5 + 256 * (b6 + 256 * b7))))))) :: toWords rest
  | _ => []

/-- SHA-3 `pad10*1` padding with domain bits `0x06`, to a multiple of the
72-byte rate. -/
def sha3Pad (msg : List Nat) : List Nat :=
  let padLen := 72 - msg.length % 72
  msg ++ (if padLen = 1 then [0x86] else 0x06 :: (List.replicate (padLen - 2) 0 ++ [0x80]))

def xorBlock (s block : List Nat) : List Nat :=
  (List.range 25).map (fun i => s.getD i 0 ^^^ block.getD i 0)

/-- Absorb the padded message, nine 64-bit words (72 bytes) per block. -/
def absorb : List Nat → List Nat → List Nat
  | s, w0 :: w1 :: w2 :: w3 :: w4 :: w5 :: w6 :: w7 :: w8 :: rest =>
      absorb (keccakF (xorBlock s [w0, w1, w2, w3, w4, w5, w6, w7, w8])) rest
  | s, _ => s

def wordLE (w : Nat) : List Nat :=
  (List.range 8).map (fun k => (w >>> (8 * k)) % 256)

def stateBytes (s : List Nat) : List Nat :=
  ((List.range 25).map (fun i => wordLE (s.getD i 0))).flatten

/-- The full SHA3-512 digest of a byte string: absorb, then squeeze the
first 64 bytes (the 576-bit rate exceeds the 512-bit output, so a single
squeeze suffices). -/
def sha3_512 (msg : List Nat) : List Nat :=
  (stateBytes (absorb (List.replicate 25 0) (toWords (sha3Pad msg)))).take 64

theorem wordLE_length (w : Nat) : (wordLE w).length = 8 := by
  simp [wordLE]

theorem stateBytes_length (s : List Nat) : (stateBytes s).length = 200 := by
  simp [stateBytes, List.length_flatten, List.map_map, Function.comp_def, wordLE_length]

theorem sha3_512_length (m : List Nat) : (sha3_512 m).length = 64 := by
  rw [sha3_512, List.length_take, stateBytes_length]
  decide

/-! ## Entropy derivation and seed selection (`framework.py` lines 58-67
and 206-213). -/

/-- `get_entropy` (framework.py lines 58-67): a SHA3-512 hash object is
updated with the raw bytes of every configuration file in the fixed
`CONFIGS` order, then with `pickle.dumps(extras)`.  Incremental `update`
calls hash the concatenation of their arguments, so the digest is that of
the concatenated bytes.  File contents arrive here as explicit byte-list
parameters (the shallow embedding of `Path.read_bytes`), and the pickle
serialization of the extras is likewise passed as bytes, the extras being
opaque Python objects. -/
def get_entropy (configBytes : List (List Nat)) (extrasDump : List Nat) : List Nat :=
  sha3_512 (configBytes.flatten ++ extrasDump)

/-- framework.py line 208: `seed = override_seed or entropy`.  Python's
`or` falls back to `entropy` whenever `override_seed` is falsy, i.e.
`None` or the empty bytes object `b''`. -/
def selectSeed (override_seed : Option (List Nat)) (entropy : List Nat) : List Nat :=
  match override_seed with
  | none => entropy
  | some o => if o = [] then entropy else o

/-- framework.py lines 211-213: the shuffle of the indexed working set is
driven by `Random(seed)` where `seed = override_seed or entropy`.  The
Mersenne-Twister shuffle itself is kept as an explicit function parameter
`shuffle` of the seed bytes and the list; every theorem below quantifies
over it. -/
def shuffledSet (shuffle : List Nat → List β → List β)
    (override_seed : Option (List Nat)) (entropy : List Nat) (s : List β) : List β :=
  shuffle (selectSeed override_seed entropy) s

/-- framework.py line 227: the confirmation prompt always shows
`entropy.hex()` — the derived entropy — whatever seed was selected. -/
def displayedChecksum (_override_seed : Option (List Nat)) (entropy : List Nat) : List Nat :=
  entropy

/-! ## Weighted partitioning (`framework.py` lines 178 and 201-220). -/

/-- framework.py line 178:
`weights = tuple(thread_weight * threads for thread_weight, threads in machines.values())`.
A machine is (name, thread-weight, thread-count). -/
def machineWeights (machines : List (String × Nat × Nat)) : List Nat :=
  machines.map (fun m => m.2.1 * m.2.2)

/-- framework.py line 216: `START = sum(weights[:ID]) * lw // TOTAL` with
`TOTAL = sum(weights)`.  Python floor division on non-negative integers is
`Nat` division. -/
def partStart (weights : List Nat) (lw i : Nat) : Nat :=
  (weights.take i).sum * lw / weights.sum

/-- framework.py line 217: `STOP = sum(weights[:ID + 1]) * lw // TOTAL`. -/
def partStop (weights : List Nat) (lw i : Nat) : Nat :=
  (weights.take (i + 1)).sum * lw / weights.sum

/-- framework.py lines 201-220: with a numeric identity the slice
`indexed_set[START:STOP]` is taken; Python raises `ZeroDivisionError`
when `TOTAL = 0` and an identity is supplied, while in the `N/A` branch
`TOTAL` is never used as a divisor and the whole set is kept
(`START = 0`, `STOP = len(working_set)`). -/
def computeSlice (weights : List Nat) (ID : Option Nat) (lw : Nat)
    (indexed_set : List β) : Except String (Nat × Nat × List β) :=
  match ID with
  | some i =>
      if weights.sum = 0 then
        Except.error "ZeroDivisionError: integer division or modulo by zero"
      else
        Except.ok (partStart weights lw i, partStop weights lw i,
          (indexed_set.drop (partStart weights lw i)).take
            (partStop weights lw i - partStart weights lw i))
  | none => Except.ok (0, lw, indexed_set)

/-- framework.py lines 211-213 in explicit-state form: `Random(seed)`
creates generator state `init seed`; each comprehension element receives
`copy(random_obj)` — a copy of that still-unconsumed state — and only
afterwards does `random_obj.shuffle` draw from the generator.  An indexed
job is `(idx, (*items, copy(random_obj), config))`. -/
def indexedSet (init : List Nat → ρ) (seed : List Nat)
    (working_set : List β) (config : γ) : List (Nat × β × ρ × γ) :=
  working_set.enum.map (fun p => (p.1, p.2, init seed, config))

/-! ## The completion-processing loop and result persistence
(`framework.py` lines 240-294). -/

/-- One cell of a persisted CSV row: a time-like metadata value, the
original job id, or one of the job's own result values. -/
inductive Cell (ρ : Type) where
  | num (t : Int)
  | jid (j : Nat)
  | val (v : ρ)
deriving DecidableEq

/-- One line of a result file: the verbatim header, or one record row. -/
inductive Line (ρ : Type) where
  | header (s : String)
  | row (cells : List (Cell ρ))
deriving DecidableEq

/-- The `[results]` configuration keys read by the loop
(framework.py lines 272-290). -/
structure ResultsConfig where
  compress : Bool
  file_name : String
  include_start_time : Bool
  include_job_interval : Bool
  include_job_done_time : Bool
  include_job_id : Bool
deriving DecidableEq

/-- One completion drained from the pool: the original job id, the job's
returned result (`none` embeds Python `None`), and the value `time()`
reads when this completion is processed. -/
structure Completion (ρ : Type) where
  job_id : Nat
  result : Option (List ρ)
  arrival : Int
deriving DecidableEq

/-- The loop state: the accumulator `current`, `last_time`, the file
system (name to lines), and the logger output. -/
structure RunState (T ρ : Type) where
  current : T
  last_time : Int
  fs : String → List (Line ρ)
  log : List String

/-- framework.py lines 272-280: rows are appended to the configured
`file_name`, with `.gz` appended to the name when compression is on. -/
def rowFile (cfg : ResultsConfig) : String :=
  if cfg.compress then cfg.file_name ++ ".gz" else cfg.file_name

/-- framework.py lines 282-290: the enabled metadata cells in the fixed
source order — start time, inter-job interval, completion time, job id. -/
def metaCells (cfg : ResultsConfig) (start_time new_time last_time : Int)
    (job_id : Nat) : List (Cell ρ) :=
  (if cfg.include_start_time then [Cell.num start_time] else []) ++
  (if cfg.include_job_interval then [Cell.num (new_time - last_time)] else []) ++
  (if cfg.include_job_done_time then [Cell.num new_time] else []) ++
  (if cfg.include_job_id then [Cell.jid job_id] else [])

/-- One iteration of the completion loop (framework.py lines 256-293):
`current = reduce_function(current, result)` is attempted first — on an
exception the assignment never happens, so the accumulator keeps its
pre-call value, and the error plus the `distb` diagnostic are logged;
then `new_time = time()`, a `None` result becomes `()`, and one row
`(*meta, *result)` is appended to the target file; finally
`last_time = new_time`. -/
def stepCompletion (cfg : ResultsConfig)
    (reduce_function : T → Option (List ρ) → Except String T)
    (start_time : Int) (st : RunState T ρ) (c : Completion ρ) : RunState T ρ :=
  let reduced := reduce_function st.current c.result
  let current := match reduced with
    | Except.ok v => v
    | Except.error _ => st.current
  let log := match reduced with
    | Except.ok _ => st.log
    | Except.error e => st.log ++ ["HEY! Your reduce function messed up!", e]
  let new_time := c.arrival
  let result := c.result.getD []
  let meta : List (Cell ρ) := metaCells cfg start_time new_time st.last_time c.job_id
  let target := rowFile cfg
  { current := current
    last_time := new_time
    fs := fun n =>
      if n = target then st.fs n ++ [Line.row (meta ++ result.map Cell.val)] else st.fs n
    log := log }

/-- framework.py lines 243-244: before the loop the header is (re)written
verbatim, to the hard-coded `RESULTS_CSV = Path('results.csv')`. -/
def initFS (hdr : String) : String → List (Line ρ) :=
  fun n => if n = "results.csv" then [Line.header hdr] else []

/-- framework.py lines 240-244: `start_time = last_time = time()`,
`current = reduce_start`, header written. -/
def initState (reduce_start : T) (start_time : Int) (hdr : String) : RunState T ρ :=
  { current := reduce_start, last_time := start_time, fs := initFS hdr, log := [] }

/-- The whole completion loop (framework.py lines 250-293): a fold of
`stepCompletion` over the completions in their arrival order; the final
`current` is what `run_jobs` returns (line 294). -/
def runLoop (cfg : ResultsConfig)
    (reduce_function : T → Option (List ρ) → Except String T)
    (reduce_start : T) (start_time : Int) (hdr : String)
    (completions : List (Completion ρ)) : RunState T ρ :=
  completions.foldl (stepCompletion cfg reduce_function start_time)
    (initState reduce_start start_time hdr)

def isRow : Line ρ → Bool
  | Line.row _ => true
  | Line.header _ => false

/-- The number of record rows (header lines not counted) in a file. -/
def rowCount (lines : List (Line ρ)) : Nat := (lines.filter isRow).length

/-! ## The zip-merging rotating log handler (`src/zipped_logs.py`).

The file system is an association list from file names to contents; a
content is either a plaintext file or a zip container with named entries.
`baseFilename` is modelled directory-free, so `path.basename` is the
identity on it. -/

inductive FileData where
  | plain (content : String)
  | zip (entries : List (String × String))
deriving DecidableEq

abbrev FS := List (String × FileData)

def fsGet (fs : FS) (n : String) : Option FileData :=
  (fs.find? (fun p => p.1 == n)).map Prod.snd

def fsExists (fs : FS) (n : String) : Bool := (fsGet fs n).isSome

def fsRemove (fs : FS) (n : String) : FS := fs.filter (fun p => p.1 != n)

def fsSet (fs : FS) (n : String) (d : FileData) : FS := fsRemove fs n ++ [(n, d)]

def fsRename (fs : FS) (src dst : String) : FS :=
  match fsGet fs src with
  | some d => fsSet (fsRemove fs src) dst d
  | none => fs

/-- zipped_logs.py lines 14-15: `rotation_filename` appends `.zip`. -/
def rotation_filename (s : String) : String := s ++ ".zip"

/-- The on-disk name of the `i`-th numbered rotation,
`"%s.%d" % (baseFilename, i)` passed through `rotation_filename`. -/
def numberedZip (base : String) (i : Nat) : String :=
  rotation_filename (base ++ "." ++ toString i)

/-- `rotator` (zipped_logs.py lines 35-43): the active log file is
compressed into a fresh zip under its base name and the plaintext
removed; any other source is simply renamed. -/
def rotator (base source dest : String) (fs : FS) : FS :=
  if source = base then
    match fsGet fs source with
    | some (FileData.plain c) => fsSet (fsRemove fs source) dest (FileData.zip [(base, c)])
    | _ => fs
  else fsRename fs source dest

/-- One iteration of the numbered-backup shift inside `doRollover`:
if `base.i.zip` exists, any `base.(i+1).zip` is removed and
`base.i.zip` is renamed onto it. -/
def shiftOne (base : String) (fs : FS) (i : Nat) : FS :=
  let sfn := numberedZip base i
  let dfn := numberedZip base (i + 1)
  if fsExists fs sfn then fsRename (fsRemove fs dfn) sfn dfn else fs

/-- Modelled from Python's `logging.handlers.RotatingFileHandler.doRollover`
(the stdlib superclass of `ZippedRotatingFileHandler`), with
`rotation_filename` and `rotator` as overridden in zipped_logs.py: shift
the numbered archives `i = backupCount-1, …, 1` up by one, remove any
`base.1.zip`, then rotate the live file into `base.1.zip`. -/
def doRollover (base : String) (backupCount : Nat) (fs : FS) : FS :=
  let countdown := (List.range (backupCount - 1)).map (fun k => backupCount - 1 - k)
  let fs1 := countdown.foldl (shiftOne base) fs
  rotator base base (numberedZip base 1) (fsRemove fs1 (numberedZip base 1))

/-- A size-triggered rollover followed by the log writes that refill the
freshly reopened live file with `newContent`. -/
def rolloverThenWrite (base : String) (backupCount : Nat) (newContent : String)
    (fs : FS) : FS :=
  fsSet (doRollover base backupCount fs) base (FileData.plain newContent)

/-- Python `str.zfill`: left-pad with `'0'` to the given width. -/
def zfill (s : String) (w : Nat) : String :=
  if s.length < w then String.mk (List.replicate (w - s.length) '0') ++ s else s

/-- The container entry name for the `i`-th merged rotation,
`basename + '.' + str(i).zfill(max_digits)` (zipped_logs.py line 31). -/
def entryName (base : String) (maxDigits i : Nat) : String :=
  base ++ "." ++ zfill (toString i) maxDigits

/-- The merge loop of `close` (zipped_logs.py lines 26-32): walk the
numbered archives in order, stopping at the first missing one; each
existing archive's `basename` entry is copied into the destination
container and the standalone archive removed. -/
def mergeLoop (base : String) (maxDigits : Nat) :
    List Nat → FS → List (String × String) → FS × List (String × String)
  | [], fs, es => (fs, es)
  | i :: rest, fs, es =>
      match fsGet fs (numberedZip base i) with
      | some (FileData.zip zentries) =>
          match (zentries.find? (fun p => p.1 == base)).map Prod.snd with
          | some content =>
              mergeLoop base maxDigits rest (fsRemove fs (numberedZip base i))
                (es ++ [(entryName base maxDigits i, content)])
          | none => (fs, es)
      | _ => (fs, es)

/-- `close` (zipped_logs.py lines 17-33): the live file's content becomes
the first entry of `base.zip` and the plaintext is removed; then the
numbered archives `1 … backupCount - 1` are merged in as further entries
(`range(1, self.backupCount)`) and removed. -/
def closeHandler (base : String) (backupCount : Nat) (fs : FS) : FS :=
  match fsGet fs base with
  | some (FileData.plain c) =>
      let maxDigits := (toString backupCount).length
      let merged := mergeLoop base maxDigits
        ((List.range (backupCount - 1)).map (fun k => k + 1))
        (fsRemove fs base) [(base, c)]
      fsSet merged.1 (rotation_filename base) (FileData.zip merged.2)
  | _ => fs

def isZipFile : FileData → Bool
  | FileData.zip _ => true
  | FileData.plain _ => false

def zipCount (fs : FS) : Nat := (fs.filter (fun p => isZipFile p.2)).length

def plainCount (fs : FS) : Nat := (fs.filter (fun p => !isZipFile p.2)).length

/-! ## Helper lemmas. -/

theorem take_sum_le (W : List Nat) : ∀ i, (W.take i).sum ≤ (W.take (i + 1)).sum := by
  induction W with
  | nil => intro i; simp
  | cons a tl ih =>
      intro i
      cases i with
      | zero => simp
      | succ j => simpa using Nat.add_le_add_left (ih j) a

theorem partStart_mono (W : List Nat) (lw : Nat) : Monotone (partStart W lw) :=
  monotone_nat_of_le_succ
    (fun i => Nat.div_le_div_right (Nat.mul_le_mul_right lw (take_sum_le W i)))

theorem partStart_zero (W : List Nat) (lw : Nat) : partStart W lw 0 = 0 := by
  simp [partStart]

theorem partStart_length (W : List Nat) (lw : Nat) (hT : 0 < W.sum) :
    partStart W lw W.length = lw := by
  rw [partStart, List.take_length]
  exact Nat.mul_div_cancel_left lw hT

theorem partStop_eq_partStart_succ (W : List Nat) (lw i : Nat) :
    partStop W lw i = partStart W lw (i + 1) := rfl

/-- A monotone boundary sequence covers each point below its top value. -/
theorem mono_cover (f : Nat → Nat) :
    ∀ n k, f 0 ≤ k → k < f n → ∃ i, i < n ∧ f i ≤ k ∧ k < f (i + 1) := by
  intro n
  induction n with
  | zero => intro k h0 hk; omega
  | succ m ih =>
      intro k h0 hk
      by_cases hm : f m ≤ k
      · exact ⟨m, Nat.lt_succ_self m, hm, hk⟩
      · obtain ⟨i, hi, h1, h2⟩ := ih k h0 (Nat.lt_of_not_le hm)
        exact ⟨i, Nat.lt_succ_of_lt hi, h1, h2⟩

theorem take_sum_succ_of_get_zero (W : List Nat) :
    ∀ i, ∀ h : i < W.length, W.get ⟨i, h⟩ = 0 →
      (W.take (i + 1)).sum = (W.take i).sum := by
  induction W with
  | nil => intro i h; cases h
  | cons a tl ih =>
      intro i h hz
      cases i with
      | zero => simpa using hz
      | succ j =>
          have := ih j (by simpa using h) (by simpa using hz)
          simpa using this

theorem rowCount_append_row (ls : List (Line ρ)) (cs : List (Cell ρ)) :
    rowCount (ls ++ [Line.row cs]) = rowCount ls + 1 := by
  simp [rowCount, List.filter_append, isRow]

theorem rowCount_initFS (hdr : String) (n : String) :
    rowCount (initFS (ρ := ρ) hdr n) = 0 := by
  unfold initFS rowCount
  by_cases h : n = "results.csv" <;> simp [h, isRow]

theorem stepCompletion_fs_target (cfg : ResultsConfig)
    (reduce_function : T → Option (List ρ) → Except String T)
    (start_time : Int) (st : RunState T ρ) (c : Completion ρ) :
    (stepCompletion cfg reduce_function start_time st c).fs (rowFile cfg)
      = st.fs (rowFile cfg)
        ++ [Line.row (metaCells cfg start_time c.arrival st.last_time c.job_id
              ++ (c.result.getD []).map Cell.val)] := by
  simp [stepCompletion]

theorem stepCompletion_fs_other (cfg : ResultsConfig)
    (reduce_function : T → Option (List ρ) → Except String T)
    (start_time : Int) (st : RunState T ρ) (c : Completion ρ)
    (n : String) (hn : n ≠ rowFile cfg) :
    (stepCompletion cfg reduce_function start_time st c).fs n = st.fs n := by
  simp [stepCompletion, hn]

theorem stepCompletion_error (cfg : ResultsConfig)
    (reduce_function : T → Option (List ρ) → Except String T)
    (start_time : Int) (st : RunState T ρ) (c : Completion ρ) (msg : String)
    (h : reduce_function st.current c.result = Except.error msg) :
    (stepCompletion cfg reduce_function start_time st c).current = st.current
    ∧ (stepCompletion cfg reduce_function start_time st c).log
        = st.log ++ ["HEY! Your reduce function messed up!", msg] := by
  constructor <;> simp [stepCompletion, h]

theorem runLoop_all_errors_invariant (cfg : ResultsConfig) (e : String)
    (start_time : Int) (completions : List (Completion ρ)) :
    ∀ st : RunState T ρ,
      (completions.foldl (stepCompletion cfg (fun _ _ => Except.error e) start_time) st).current
        = st.current
      ∧ rowCount ((completions.foldl
            (stepCompletion cfg (fun _ _ => Except.error e) start_time) st).fs (rowFile cfg))
        = rowCount (st.fs (rowFile cfg)) + completions.length := by
  induction completions with
  | nil => intro st; simp
  | cons c rest ih =>
      intro st
      obtain ⟨h1, h2⟩ := ih (stepCompletion cfg (fun _ _ => Except.error e) start_time st c)
      have hcur : (stepCompletion cfg (fun _ _ => Except.error e) start_time st c).current
          = st.current := by
        simp [stepCompletion]
      have hfs := stepCompletion_fs_target cfg (fun _ _ => Except.error e) start_time st c
      constructor
      · rw [List.foldl_cons, h1, hcur]
      · rw [List.foldl_cons, h2, hfs, rowCount_append_row]
        simp [Nat.add_comm, Nat.add_assoc, Nat.add_left_comm]

/-! ## Claim theorems. -/

/-- C1: for every non-negative weight sequence with positive total and
every item count, the per-machine ranges
`[floor(sum(W[0:i])*L/TOTAL), floor(sum(W[0:i+1])*L/TOTAL))` start at 0,
are contiguous, monotone, pairwise disjoint, stay within and jointly
cover `[0, L)`, and a zero-weight machine receives an empty range. -/
theorem partition_plan_tiles (W : List Nat) (lw : Nat) (hT : 0 < W.sum) :
    partStart W lw 0 = 0
    ∧ (∀ i, partStop W lw i = partStart W lw (i + 1))
    ∧ (∀ i j, i ≤ j → partStart W lw i ≤ partStart W lw j)
    ∧ (∀ i, partStart W lw i ≤ partStop W lw i)
    ∧ (∀ i j, i < j → partStop W lw i ≤ partStart W lw j)
    ∧ (∀ i, i < W.length → partStop W lw i ≤ lw)
    ∧ (∀ k, k < lw → ∃ i, i < W.length ∧ partStart W lw i ≤ k ∧ k < partStop W lw i)
    ∧ (∀ i, ∀ h : i < W.length, W.get ⟨i, h⟩ = 0 →
        partStart W lw i = partStop W lw i) := by
  refine ⟨partStart_zero W lw, fun i => rfl,
    fun i j hij => partStart_mono W lw hij,
    fun i => partStart_mono W lw (Nat.le_succ i),
    fun i j hij => partStart_mono W lw hij,
    fun i hi => ?_, fun k hk => ?_, fun i h hz => ?_⟩
  · have hm := partStart_mono W lw (Nat.succ_le_of_lt hi)
    rw [partStart_length W lw hT] at hm
    exact hm
  · have h0 : partStart W lw 0 ≤ k := by
      rw [partStart_zero]; exact Nat.zero_le k
    have hk' : k < partStart W lw W.length := by
      rw [partStart_length W lw hT]; exact hk
    exact mono_cover (partStart W lw) W.length k h0 hk'
  · unfold partStart partStop
    rw [take_sum_succ_of_get_zero W i h hz]

/-- Witness for C1 at weights `[3, 0, 1]` (one zero-weight machine) and
7 items. -/
theorem partition_plan_tiles_witness :
    0 < ([3, 0, 1] : List Nat).sum
    ∧ (partStart [3, 0, 1] 7 0 = 0
      ∧ (∀ i, partStop [3, 0, 1] 7 i = partStart [3, 0, 1] 7 (i + 1))
      ∧ (∀ i j, i ≤ j → partStart [3, 0, 1] 7 i ≤ partStart [3, 0, 1] 7 j)
      ∧ (∀ i, partStart [3, 0, 1] 7 i ≤ partStop [3, 0, 1] 7 i)
      ∧ (∀ i j, i < j → partStop [3, 0, 1] 7 i ≤ partStart [3, 0, 1] 7 j)
      ∧ (∀ i, i < ([3, 0, 1] : List Nat).length → partStop [3, 0, 1] 7 i ≤ 7)
      ∧ (∀ k, k < 7 → ∃ i, i < ([3, 0, 1] : List Nat).length
          ∧ partStart [3, 0, 1] 7 i ≤ k ∧ k < partStop [3, 0, 1] 7 i)
      ∧ (∀ i, ∀ h : i < ([3, 0, 1] : List Nat).length,
          ([3, 0, 1] : List Nat).get ⟨i, h⟩ = 0 →
            partStart [3, 0, 1] 7 i = partStop [3, 0, 1] 7 i)) :=
  ⟨by decide, partition_plan_tiles [3, 0, 1] 7 (by decide)⟩

/-- The reduction function used for the C2 witness: it always raises. -/
def errReduce : Nat → Option (List Nat) → Except String Nat :=
  fun _ _ => Except.error "boom"

def wcfg : ResultsConfig := ⟨false, "results.csv", true, true, true, true⟩

def wState : RunState Nat Nat := initState 0 0 "hdr"

def wc : Completion Nat := ⟨2, none, 5⟩

def wc2 : Completion Nat := ⟨3, some [8], 9⟩

/-- C2: when the caller's reduction function raises on a completion, the
accumulator keeps its pre-call value, the error and a diagnostic are
logged, and one result row is still appended; with an always-raising
reduction every completion is still processed, the loop returns
`reduce_start`, and N rows are persisted. -/
theorem reduce_failure_isolated (cfg : ResultsConfig)
    (reduce_function : T → Option (List ρ) → Except String T)
    (start_time : Int) (st : RunState T ρ) (c : Completion ρ) (msg e : String)
    (reduce_start : T) (hdr : String) (completions : List (Completion ρ))
    (h : reduce_function st.current c.result = Except.error msg) :
    ((stepCompletion cfg reduce_function start_time st c).current = st.current
      ∧ (stepCompletion cfg reduce_function start_time st c).log
          = st.log ++ ["HEY! Your reduce function messed up!", msg]
      ∧ rowCount ((stepCompletion cfg reduce_function start_time st c).fs (rowFile cfg))
          = rowCount (st.fs (rowFile cfg)) + 1)
    ∧ ((runLoop cfg (fun _ _ => Except.error e) reduce_start start_time hdr
          completions).current = reduce_start
      ∧ rowCount ((runLoop cfg (fun _ _ => Except.error e) reduce_start start_time hdr
          completions).fs (rowFile cfg)) = completions.length) := by
  obtain ⟨hc, hl⟩ := stepCompletion_error cfg reduce_function start_time st c msg h
  obtain ⟨h1, h2⟩ := runLoop_all_errors_invariant cfg e start_time completions
    (initState reduce_start start_time hdr)
  refine ⟨⟨hc, hl, ?_⟩, ⟨h1, ?_⟩⟩
  · rw [stepCompletion_fs_target, rowCount_append_row]
  · simp only [runLoop]
    rw [h2]
    simp [initState, rowCount_initFS]

/-- Witness for C2: an always-raising reduction over two completions. -/
theorem reduce_failure_isolated_witness :
    errReduce wState.current wc.result = Except.error "boom"
    ∧ (((stepCompletion wcfg errReduce 0 wState wc).current = wState.current
      ∧ (stepCompletion wcfg errReduce 0 wState wc).log
          = wState.log ++ ["HEY! Your reduce function messed up!", "boom"]
      ∧ rowCount ((stepCompletion wcfg errReduce 0 wState wc).fs (rowFile wcfg))
          = rowCount (wState.fs (rowFile wcfg)) + 1)
    ∧ ((runLoop wcfg (fun _ _ => Except.error "err") 0 0 "hdr"
          [wc, wc2]).current = 0
      ∧ rowCount ((runLoop wcfg (fun _ _ => Except.error "err") 0 0 "hdr"
          [wc, wc2]).fs (rowFile wcfg)) = [wc, wc2].length)) :=
  ⟨rfl, reduce_failure_isolated wcfg errReduce 0 wState wc "boom" "err" 0 "hdr" [wc, wc2] rfl⟩

/-- C3 fails as stated: Python's `seed = override_seed or entropy` treats
the caller-supplied empty override seed `b''` as falsy, so the derived
entropy drives the shuffle, and a seed-sensitive shuffle yields different
orders for the same override seed under different entropies. -/
theorem empty_override_uses_entropy :
    selectSeed (some []) [1] = [1]
    ∧ shuffledSet (fun sd l => if sd = [1] then l else l.reverse) (some []) [1] [0, 1]
        ≠ shuffledSet (fun sd l => if sd = [1] then l else l.reverse) (some []) [2] [0, 1] := by
  decide

/-- C3 (amended): for every non-empty caller-supplied override seed, the
selected seed is the override, the shuffle order is identical across runs
whatever entropy each derives, and the displayed checksum is still the
derived entropy. -/
theorem override_seed_reproducible
    (shuffle : List Nat → List β → List β) (o e1 e2 : List Nat) (s : List β)
    (h : o ≠ []) :
    selectSeed (some o) e1 = o
    ∧ shuffledSet shuffle (some o) e1 s = shuffledSet shuffle (some o) e2 s
    ∧ displayedChecksum (some o) e1 = e1 := by
  have hsel : ∀ e : List Nat, selectSeed (some o) e = o := fun e => by
    simp [selectSeed, h]
  exact ⟨hsel e1, by simp only [shuffledSet, hsel], rfl⟩

/-- Witness for the amended C3 at override seed `[9]` and distinct
entropies `[1]`, `[2]`. -/
theorem override_seed_reproducible_witness :
    ([9] : List Nat) ≠ []
    ∧ (selectSeed (some [9]) [1] = [9]
      ∧ shuffledSet (fun _ l => l) (some [9]) [1] [5, 6]
          = shuffledSet (fun _ l => l) (some [9]) [2] [5, 6]
      ∧ displayedChecksum (some [9]) [1] = [1]) :=
  ⟨by decide, override_seed_reproducible (fun _ l => l) [9] [1] [2] [5, 6] (by decide)⟩

/-- C4: byte-identical configuration files and identical working-set
serializations give identical seeds — a 512-bit (64-byte) SHA3 digest of
those inputs alone, with no timestamp or machine-specific contribution —
and hence an identical shuffle order. -/
theorem entropy_deterministic (c1 c2 : List (List Nat)) (d1 d2 : List Nat)
    (shuffle : List Nat → List β → List β) (s : List β)
    (hc : c1 = c2) (hd : d1 = d2) :
    get_entropy c1 d1 = get_entropy c2 d2
    ∧ (get_entropy c1 d1).length = 64
    ∧ shuffledSet shuffle none (get_entropy c1 d1) s
        = shuffledSet shuffle none (get_entropy c2 d2) s := by
  subst hc
  subst hd
  exact ⟨rfl, sha3_512_length _, rfl⟩

/-- Witness for C4 at one-byte configuration files and a two-byte
working-set serialization. -/
theorem entropy_deterministic_witness :
    ([[1], [2]] : List (List Nat)) = [[1], [2]]
    ∧ ([3, 4] : List Nat) = [3, 4]
    ∧ (get_entropy [[1], [2]] [3, 4] = get_entropy [[1], [2]] [3, 4]
      ∧ (get_entropy [[1], [2]] [3, 4]).length = 64
      ∧ shuffledSet (fun _ l => l) none (get_entropy [[1], [2]] [3, 4]) [0, 1]
          = shuffledSet (fun _ l => l) none (get_entropy [[1], [2]] [3, 4]) [0, 1]) :=
  ⟨rfl, rfl, entropy_deterministic [[1], [2]] [[1], [2]] [3, 4] [3, 4]
    (fun _ l => l) [0, 1] rfl rfl⟩

/-- C5 fails as stated: with all-zero weights and the no-identity mode
(`N/A`), `TOTAL` is never used as a divisor, so the run does not halt —
it proceeds over the whole working set. -/
theorem zero_weight_no_id_proceeds :
    ([0, 0] : List Nat).sum = 0
    ∧ computeSlice [0, 0] none 3 [10, 20, 30] = Except.ok (0, 3, [10, 20, 30]) :=
  ⟨by decide, rfl⟩

/-- C5 (amended): zero total weight halts the run — the partition
computation raises `ZeroDivisionError` before any job is submitted —
exactly when a numeric machine identity is supplied; in the no-identity
mode the run proceeds over the full working set. -/
theorem zero_total_weight_behavior (W : List Nat) (i lw : Nat) (s : List β)
    (h : W.sum = 0) :
    computeSlice W (some i) lw s
      = Except.error "ZeroDivisionError: integer division or modulo by zero"
    ∧ computeSlice W none lw s = Except.ok (0, lw, s) := by
  constructor
  · simp [computeSlice, h]
  · rfl

/-- Witness for the amended C5 at weights `[0]`. -/
theorem zero_total_weight_behavior_witness :
    ([0] : List Nat).sum = 0
    ∧ (computeSlice [0] (some 0) 2 [(5 : Nat)]
        = Except.error "ZeroDivisionError: integer division or modulo by zero"
      ∧ computeSlice [0] none 2 [(5 : Nat)] = Except.ok (0, 2, [5])) :=
  ⟨by decide, zero_total_weight_behavior [0] 0 2 [5] (by decide)⟩

/-- C6: each completion appends exactly one row to the result store —
the enabled metadata cells in the fixed order (start time, inter-job
interval, completion time, job id) followed by the job's result values
in order; a `None` result contributes no result cells, leaving only the
metadata; no other file changes. -/
theorem result_row_format (cfg : ResultsConfig)
    (reduce_function : T → Option (List ρ) → Except String T)
    (start_time : Int) (st : RunState T ρ) (c c0 : Completion ρ)
    (hnone : c0.result = none) :
    (stepCompletion cfg reduce_function start_time st c).fs (rowFile cfg)
      = st.fs (rowFile cfg)
        ++ [Line.row (metaCells cfg start_time c.arrival st.last_time c.job_id
              ++ (c.result.getD []).map Cell.val)]
    ∧ (stepCompletion cfg reduce_function start_time st c0).fs (rowFile cfg)
      = st.fs (rowFile cfg)
        ++ [Line.row (metaCells cfg start_time c0.arrival st.last_time c0.job_id)]
    ∧ (∀ n, n ≠ rowFile cfg →
        (stepCompletion cfg reduce_function start_time st c).fs n = st.fs n) := by
  refine ⟨stepCompletion_fs_target cfg reduce_function start_time st c, ?_,
    fun n hn => stepCompletion_fs_other cfg reduce_function start_time st c n hn⟩
  have h0 := stepCompletion_fs_target cfg reduce_function start_time st c0
  rw [hnone] at h0
  simpa using h0

/-- Witness for C6 with one valued and one `None` completion. -/
theorem result_row_format_witness :
    (Completion.mk 2 (none : Option (List Nat)) 5).result = none
    ∧ ((stepCompletion wcfg errReduce 0 wState ⟨3, some [8], 9⟩).fs (rowFile wcfg)
        = wState.fs (rowFile wcfg)
          ++ [Line.row (metaCells wcfg 0 (9 : Int) wState.last_time 3
                ++ ([8] : List Nat).map Cell.val)]
      ∧ (stepCompletion wcfg errReduce 0 wState ⟨2, none, 5⟩).fs (rowFile wcfg)
        = wState.fs (rowFile wcfg)
          ++ [Line.row (metaCells wcfg 0 (5 : Int) wState.last_time 2)]
      ∧ (∀ n, n ≠ rowFile wcfg →
          (stepCompletion wcfg errReduce 0 wState ⟨3, some [8], 9⟩).fs n = wState.fs n)) :=
  ⟨rfl, result_row_format wcfg errReduce 0 wState ⟨3, some [8], 9⟩ ⟨2, none, 5⟩ rfl⟩

def c7Config : ResultsConfig := ⟨true, "results.csv", false, false, false, true⟩

/-- C7 fails on the code: the header is written to the hard-coded
plaintext `results.csv` (framework.py lines 243-244) while rows go to the
configured file name with `.gz` appended when compression is on (lines
272-280) — so with compression enabled the store holding the rows never
contains the header, and the plaintext file is not replaced. -/
theorem compressed_rows_lack_header :
    (runLoop c7Config (fun x _ => Except.ok x) (0 : Nat) 0 "declared header"
        [⟨0, some [(7 : Nat)], 1⟩]).fs "results.csv" = [Line.header "declared header"]
    ∧ (runLoop c7Config (fun x _ => Except.ok x) (0 : Nat) 0 "declared header"
        [⟨0, some [(7 : Nat)], 1⟩]).fs "results.csv.gz"
        = [Line.row [Cell.jid 0, Cell.val 7]]
    ∧ rowFile c7Config = "results.csv.gz" := by
  decide

/-- C8: with weights = priority-weight × thread-count, roster
`{A: [1,4], B: [1,4]}` with L = 10 gives A `[0,5)` and B `[5,10)`, and
roster `{A: [1,2], B: [3,2]}` with L = 8 gives A `[0,2)` and B `[2,8)`. -/
theorem example_partitions :
    machineWeights [("A", 1, 4), ("B", 1, 4)] = [4, 4]
    ∧ partStart [4, 4] 10 0 = 0 ∧ partStop [4, 4] 10 0 = 5
    ∧ partStart [4, 4] 10 1 = 5 ∧ partStop [4, 4] 10 1 = 10
    ∧ machineWeights [("A", 1, 2), ("B", 3, 2)] = [2, 6]
    ∧ partStart [2, 6] 8 0 = 0 ∧ partStop [2, 6] 8 0 = 2
    ∧ partStart [2, 6] 8 1 = 2 ∧ partStop [2, 6] 8 1 = 8 := by
  decide

def c9Rotated : FS :=
  rolloverThenWrite "app.log" 3 "c4"
    (rolloverThenWrite "app.log" 3 "c3"
      (rolloverThenWrite "app.log" 3 "c2" [("app.log", FileData.plain "c1")]))

/-- C9 fails on the code: after three rotations with `backupCount = 3`
the rollover has produced `app.log.1.zip` … `app.log.3.zip`, but `close`
merges only `range(1, backupCount)` — indices 1 and 2 — so the container
does hold three distinct entries and no plaintext remains, yet
`app.log.3.zip` survives as a second standalone zip. -/
theorem close_leaves_stale_archive :
    fsGet (closeHandler "app.log" 3 c9Rotated) (rotation_filename "app.log")
      = some (FileData.zip [("app.log", "c4"), ("app.log.1", "c3"), ("app.log.2", "c2")])
    ∧ fsGet (closeHandler "app.log" 3 c9Rotated) "app.log.3.zip"
      = some (FileData.zip [("app.log", "c1")])
    ∧ fsGet (closeHandler "app.log" 3 c9Rotated) "app.log" = none
    ∧ zipCount (closeHandler "app.log" 3 c9Rotated) = 2
    ∧ plainCount (closeHandler "app.log" 3 c9Rotated) = 0 := by
  decide

/-- C10: every indexed job carries a copy of the generator state taken
before the shuffle consumed any of it, so all jobs' random sources equal
the initial state of a generator seeded with the run's seed — both in
construction order and after any rearrangement by the shuffle. -/
theorem indexed_jobs_share_seed_state (init : List Nat → ρ) (seed : List Nat)
    (working_set : List β) (config : γ) (shuffled : List (Nat × β × ρ × γ))
    (hperm : ∀ x ∈ shuffled, x ∈ indexedSet init seed working_set config) :
    (∀ x ∈ indexedSet init seed working_set config, x.2.2.1 = init seed)
    ∧ (∀ x ∈ shuffled, x.2.2.1 = init seed) := by
  have hall : ∀ x ∈ indexedSet init seed working_set config, x.2.2.1 = init seed := by
    intro x hx
    simp only [indexedSet, List.mem_map] at hx
    obtain ⟨p, hp, rfl⟩ := hx
    rfl
  exact ⟨hall, fun x hx => hall x (hperm x hx)⟩

/-- Witness for C10 with a two-job working set and a reversing shuffle. -/
theorem indexed_jobs_share_seed_state_witness :
    (∀ x ∈ (indexedSet (fun s => s) [5] [7, 8] 0).reverse,
        x ∈ indexedSet (fun s => s) [5] [7, 8] 0)
    ∧ ((∀ x ∈ indexedSet (fun s => s) [5] ([7, 8] : List Nat) (0 : Nat),
          x.2.2.1 = [5])
      ∧ (∀ x ∈ (indexedSet (fun s => s) [5] [7, 8] 0).reverse, x.2.2.1 = [5])) :=
  ⟨by decide, indexed_jobs_share_seed_state (fun s => s) [5] [7, 8] 0
    (indexedSet (fun s => s) [5] [7, 8] 0).reverse (by decide)⟩

end JobSplitter
